import Mathlib

/-!
Verification of the terraform-provider-gotrue repository: a shallow embedding
of the admin API client (package adminclient) and the resource reconciler
(package gotrue), with theorems about the claims of the specification.

Conventions of the embedding:
* Go strings are Lean `String`s; machine integers that appear (HTTP status
  codes) are `Nat`.
* Calls into the Go standard library's JSON codec (`encoding/json`) and URL
  parser (`net/url`) are modelled as explicit oracle parameters of the
  functions that invoke them, so every theorem quantifies over the stdlib's
  possible answers; concrete theorems instantiate the oracle with the value
  the stdlib is documented to produce on that input.
* `fmt.Sprintf("%q", s)` is modelled by `goQuote` (escaping of quotes and
  control characters inside `s` is elided; no input considered here needs it).
* Mutation of `http.Header` values through aliased references is made
  explicit with a small heap of header maps (see `Heap` below), so that the
  defensive-copy discipline of the client is a provable statement rather
  than a by-construction triviality.
-/

/-- Severity of a terraform diagnostic (`diag.Severity`). -/
inductive Severity where
  | error
  | warning
  deriving DecidableEq, Repr

/-- A terraform diagnostic (`diag.Diagnostic`): severity, summary, detail. -/
structure Diagnostic where
  severity : Severity
  summary : String
  detail : String := ""
  deriving DecidableEq, Repr

/-- Go `fmt.Sprintf("%q", s)`: the string wrapped in double quotes. Escaping
of special characters inside `s` is elided; no string this development
evaluates on contains one. -/
def goQuote (s : String) : String := "\"" ++ s ++ "\""

/-! ## The domain pattern (gotrue/provider.go line 164)

`domainPattern = regexp.MustCompile("^[a-z0-9-]+(.[a-z0-9-]+)*$")`

Note the dot in the group is NOT escaped: in RE2 syntax it matches any
character except newline. The matcher below is a direct backtracking
evaluation of this anchored pattern: one or more characters of the class
`[a-z0-9-]`, then zero or more repetitions of (any non-newline character
followed by one or more characters of the class). -/

/-- Membership in the character class `[a-z0-9-]` of `domainPattern`. -/
def isSegChar (c : Char) : Bool :=
  ('a' ≤ c && c ≤ 'z') || ('0' ≤ c && c ≤ '9') || c == '-'

/-- Backtracking matcher for the tail of `domainPattern`. The flag records
the position in the pattern: `true` means at least one class character of the
current `[a-z0-9-]+` group has been consumed (so the match may stop here, or
consume another class character, or start a new `(.[a-z0-9-]+)` repetition);
`false` means a `[a-z0-9-]+` group must still consume its first character. -/
def domainMatchAux : List Char → Bool → Bool
  | [], inRest => inRest
  | c :: l, true =>
      (isSegChar c && domainMatchAux l true) || (c != '\n' && domainMatchAux l false)
  | c :: l, false => isSegChar c && domainMatchAux l true

/-- `domainPattern.MatchString value` (the pattern is anchored on both
sides, so this is a full match). -/
def domainPatternMatches (value : String) : Bool :=
  domainMatchAux value.data false

/-- The `domains` element validator of `resourceIdentityProvider`
(gotrue/provider.go lines 179-190): one error diagnostic when the value does
not match `domainPattern`, no diagnostic otherwise. -/
def domainValidateDiag (value : String) : List Diagnostic :=
  if domainPatternMatches value then []
  else [{ severity := .error,
          summary := "Value " ++ goQuote value ++ " is not a valid domain" }]

/-- The element validator applied across a set of domain values, as the
plugin SDK does for a `TypeSet` schema with an element `ValidateDiagFunc`:
each element is validated independently and the diagnostics accumulate. -/
def domainsValidate (values : List String) : List Diagnostic :=
  values.flatMap domainValidateDiag

/-! ## Attribute mapping (adminclient, part_000 lines 71-79)

`Attribute` has an optional single name, an optional list of names and an
optional default. Go's `Default interface{}` matters to the code only
through its `== nil` test, so it is modelled by presence (`Option Unit`).
Go's `Keys map[string]Attribute` is modelled as an association list; the
validator's diagnostics are counted, never ordered, so the unspecified map
iteration order is immaterial to every statement below. -/

/-- adminclient.Attribute. -/
structure Attribute where
  Name : String := ""
  Names : List String := []
  Default : Option Unit := none
  deriving DecidableEq, Repr

/-- adminclient.AttributeMapping. -/
structure AttributeMapping where
  Keys : List (String × Attribute) := []
  deriving DecidableEq, Repr

/-- The `attribute_mapping` field validator of `resourceIdentityProvider`
(gotrue/provider.go lines 204-238). `unmA` models
`json.Unmarshal([]byte(value), &mapping)`: an error message, or the decoded
mapping. On a decode error exactly one JSON-validity diagnostic is returned;
otherwise the keys are scanned, each key with none of name/names/default set
contributing one diagnostic and otherwise each empty entry of a non-empty
names list contributing one diagnostic per position. -/
def attributeMappingValidate (unmA : String → Except String AttributeMapping)
    (value : String) : List Diagnostic :=
  match unmA value with
  | .error e =>
      [{ severity := .error,
         summary := "attribute_mapping must be valid JSON",
         detail := "JSON parsing failed: " ++ e }]
  | .ok mapping =>
      mapping.Keys.foldl (fun diags kv =>
        if kv.2.Name = "" ∧ kv.2.Names = [] ∧ kv.2.Default = none then
          diags ++ [{ severity := .error,
                      summary := "Attribute mapping key " ++ goQuote kv.1 ++
                        " must have at least one property set: name, names or default" }]
        else if kv.2.Names.length > 0 then
          diags ++ (kv.2.Names.enum.filter (fun p => p.2 = "")).map (fun p =>
            { severity := .error,
              summary := "Attribute mapping name under " ++ goQuote kv.1 ++
                ".names at position " ++ toString p.1 ++ " is empty" })
        else diags) []

/-- Spec-side count (from the spec's words): the keys whose Attribute has
none of name, non-empty names list or default set. -/
def specBadKeyCount (m : AttributeMapping) : Nat :=
  (m.Keys.filter (fun kv => kv.2.Name = "" ∧ kv.2.Names = [] ∧ kv.2.Default = none)).length

/-- Spec-side count (from the spec's words): the empty-string entries inside
names lists, over all keys. -/
def specEmptyNameCount (m : AttributeMapping) : Nat :=
  (m.Keys.map (fun kv => (kv.2.Names.filter (fun n => n = "")).length)).sum

/-! ## Provider URL validation (gotrue/provider.go lines 259-305)

`url.ParseRequestURI` is modelled by an oracle returning the parsed record
(`Scheme` and `Host`, the only fields the validator reads; Go's `URL.Host`
includes the port) or `none` for a parse error — in which case Go's function
returns a nil pointer. The source appends a diagnostic on the parse error
but does NOT return early; it then dereferences the nil `parsedURL`
(`parsedURL.Scheme`), a runtime panic. The model returns `none` for that
panic, `some diags` for a normal return.

The loopback test is
`regexp.MatchString("^(localhost|127(.[0-9]{1,3}){3})(:[0-9]+)?$", host)`
— again with unescaped dots, so any character may stand between the digit
groups. Its error result is non-nil only for an invalid pattern, which this
constant pattern is not, so the `panic(err)` branch is unreachable and not
modelled. -/

/-- The two fields of `url.URL` the validator reads. -/
structure URLRec where
  Scheme : String := ""
  Host : String := ""
  deriving DecidableEq, Repr

/-- Decimal digit class `[0-9]`. -/
def isDigitChar (c : Char) : Bool := '0' ≤ c && c ≤ '9'

/-- All remainders after consuming one to three digits (the `[0-9]{1,3}`
greedy group, as the set of backtracking alternatives). -/
def digits13 : List Char → List (List Char)
  | [] => []
  | c :: l =>
      if isDigitChar c then
        [l] ++ (match l with
          | c2 :: l2 =>
              if isDigitChar c2 then
                [l2] ++ (match l2 with
                  | c3 :: l3 => if isDigitChar c3 then [l3] else []
                  | [] => [])
              else []
          | [] => [])
      else []

/-- All remainders after one `(.[0-9]{1,3})` group: any non-newline
character, then one to three digits. -/
def dotGroup : List Char → List (List Char)
  | [] => []
  | c :: l => if c != '\n' then digits13 l else []

/-- The `(:[0-9]+)?$` tail: end of input, or a colon followed by one or more
digits reaching the end. -/
def portEnd (l : List Char) : Bool :=
  match l with
  | [] => true
  | c :: rest => c == ':' && !rest.isEmpty && rest.all isDigitChar

/-- Full match of `^(localhost|127(.[0-9]{1,3}){3})(:[0-9]+)?$` against the
host, with the pattern's unescaped dots matching any non-newline character. -/
def isLocalhostHost (host : String) : Bool :=
  let cs := host.data
  (cs.take 9 = "localhost".data && portEnd (cs.drop 9)) ||
  (cs.take 3 = "127".data &&
    ((((dotGroup (cs.drop 3)).flatMap dotGroup).flatMap dotGroup).any portEnd))

/-- The provider `url` field validator (gotrue/provider.go lines 259-305).
`none` models the runtime panic on the nil dereference that follows a parse
failure of a non-empty address; `some diags` a normal return. -/
def urlValidate (parseRequestURI : String → Option URLRec) (rawURL : String) :
    Option (List Diagnostic) :=
  if rawURL = "" then
    some [{ severity := .error, summary := "GoTrue URL is empty" }]
  else
    match parseRequestURI rawURL with
    | none =>
        -- the parse-error diagnostic is appended, but with no early return
        -- the next statement reads parsedURL.Scheme from a nil pointer
        none
    | some parsedURL =>
        let diags : List Diagnostic :=
          if parsedURL.Scheme ≠ "http" ∧ parsedURL.Scheme ≠ "https" then
            [{ severity := .error,
               summary := "GoTrue URL is not HTTP(S): " ++ goQuote parsedURL.Scheme }]
          else []
        let islocalhost := isLocalhostHost parsedURL.Host
        let diags :=
          if ¬islocalhost ∧ parsedURL.Scheme = "http" then
            diags ++ [{ severity := .warning,
                        summary := "GoTrue URL does not use HTTPS",
                        detail := "Communication with GoTrue should occur over HTTPS whenever possible" }]
          else diags
        some diags

/-! ## Request model (adminclient, part_000 lines 81-94)

`IdentityProviderRequest` is the outbound sparse record. Its domain list is
nullable (`none` = field absent), distinguishing "no change" from a sent
list; `time.Time` is opaque here. -/

/-- An opaque instant (Go `time.Time`); only carried, never inspected. -/
structure GoTime where
  unixNano : Int := 0
  deriving DecidableEq, Repr

/-- adminclient.IdentityProviderRequest. -/
structure IdentityProviderRequest where
  ID : String := ""
  ResourceID : String := ""
  «Type» : String := ""
  Domains : Option (List String) := none
  MetadataXML : String := ""
  MetadataURL : String := ""
  AttributeMapping : AttributeMapping := {}
  CreatedAt : GoTime := {}
  UpdatedAt : GoTime := {}
  deriving DecidableEq, Repr

/-- The JSON field names `json.Marshal` emits for an
`IdentityProviderRequest`, per the struct tags of part_000 lines 81-94:
string fields tagged `omitempty` appear iff non-empty, the nullable domain
list iff non-nil; `omitempty` has no effect on struct-typed fields
(`attribute_mapping`, `created_at`, `updated_at`), which are always
emitted. -/
def requestJSONFields (t : IdentityProviderRequest) : List String :=
  (if t.ID ≠ "" then ["id"] else []) ++
  (if t.ResourceID ≠ "" then ["resource_id"] else []) ++
  (if t.«Type» ≠ "" then ["type"] else []) ++
  (if t.Domains ≠ none then ["domains"] else []) ++
  (if t.MetadataXML ≠ "" then ["metadata_xml"] else []) ++
  (if t.MetadataURL ≠ "" then ["metadata_url"] else []) ++
  ["attribute_mapping", "created_at", "updated_at"]

/-! ## Reconciler request construction (gotrue/provider.go)

The terraform `ResourceData` is modelled by explicit records: for Update the
previous and the desired value of each mutable field (`d.HasChange(f)`
compares them, `d.Get(f)` yields the desired one); for Create the desired
values only (`d.GetOk(f)` is false exactly on the zero value). -/

/-- The resource record as Update sees it: previous and desired values. -/
structure UpdateData where
  metadataURLOld : String := ""
  metadataURLNew : String := ""
  metadataXMLOld : String := ""
  metadataXMLNew : String := ""
  domainsOld : List String := []
  domainsNew : List String := []
  attributeMappingOld : String := ""
  attributeMappingNew : String := ""
  deriving DecidableEq, Repr

/-- d.HasChange("metadata_url"). -/
def hasChangeMetadataURL (d : UpdateData) : Bool := d.metadataURLOld != d.metadataURLNew

/-- d.HasChange("metadata_xml"). -/
def hasChangeMetadataXML (d : UpdateData) : Bool := d.metadataXMLOld != d.metadataXMLNew

/-- d.HasChange("domains"). -/
def hasChangeDomains (d : UpdateData) : Bool := d.domainsOld != d.domainsNew

/-- d.HasChange("attribute_mapping"). -/
def hasChangeAttributeMapping (d : UpdateData) : Bool :=
  d.attributeMappingOld != d.attributeMappingNew

/-- One step of `template.Domains = append(template.Domains, x)`: appending
to the absent (nil) list materialises it, so the list stays absent exactly
when the loop body never runs. -/
def appendDomain (cur : Option (List String)) (x : String) : Option (List String) :=
  some (cur.getD [] ++ [x])

/-- The request template Update builds (gotrue/provider.go lines 84-104):
metadata URL if it changed, ELSE metadata XML if that changed; the domain
list only if it changed; the attribute mapping decoded from the desired
string when that changed and is non-empty — a decode error aborts the
operation (`Except.error`). -/
def buildUpdateTemplate (unmA : String → Except String AttributeMapping)
    (d : UpdateData) : Except String IdentityProviderRequest :=
  let template : IdentityProviderRequest := {}
  let template :=
    if hasChangeMetadataURL d then { template with MetadataURL := d.metadataURLNew }
    else if hasChangeMetadataXML d then { template with MetadataXML := d.metadataXMLNew }
    else template
  let template :=
    if hasChangeDomains d then
      { template with Domains := d.domainsNew.foldl appendDomain template.Domains }
    else template
  if hasChangeAttributeMapping d then
    if d.attributeMappingNew ≠ "" then
      match unmA d.attributeMappingNew with
      | .error e => .error e
      | .ok m => .ok { template with AttributeMapping := m }
    else .ok template
  else .ok template

/-- The resource record as Create sees it: the desired values. -/
structure CreateData where
  metadataURL : String := ""
  metadataXML : String := ""
  domains : List String := []
  attributeMapping : String := ""
  deriving DecidableEq, Repr

/-- The request template Create builds (gotrue/provider.go lines 129-153):
type fixed to "saml"; metadata URL if non-empty, else metadata XML if
non-empty; the domain list when the set is non-empty (`GetOk` is false on an
empty set); the attribute mapping decoded when non-empty, a decode error
aborting the operation. -/
def buildCreateTemplate (unmA : String → Except String AttributeMapping)
    (d : CreateData) : Except String IdentityProviderRequest :=
  let template : IdentityProviderRequest := { «Type» := "saml" }
  let template :=
    if d.metadataURL ≠ "" then { template with MetadataURL := d.metadataURL }
    else if d.metadataXML ≠ "" then { template with MetadataXML := d.metadataXML }
    else template
  let template :=
    if d.domains ≠ [] then { template with Domains := some d.domains }
    else template
  if d.attributeMapping ≠ "" then
    match unmA d.attributeMapping with
    | .error e => .error e
    | .ok m => .ok { template with AttributeMapping := m }
  else .ok template

/-- The proposition claim C2 asserts of the code: some prior/desired state
with both metadata fields changed yields an update request carrying both.
(Refuted below: the change checks are an if/else-if chain.) -/
def updateSetsBothMetadata : Prop :=
  ∃ (unmA : String → Except String AttributeMapping) (d : UpdateData)
    (t : IdentityProviderRequest),
    hasChangeMetadataURL d = true ∧ hasChangeMetadataXML d = true ∧
    buildUpdateTemplate unmA d = .ok t ∧ t.MetadataURL ≠ "" ∧ t.MetadataXML ≠ ""

/-! ## The admin client (adminclient, part_000)

`http.Header` is a map from (canonical) key to a list of values. A Go header
variable is a reference to a shared mutable map; to make the client's
defensive-copy discipline provable, header maps live in an explicit heap and
the `client` struct holds a reference into it. `Clone` copies the contents
into a fresh cell; `Add` mutates the cell in place. -/

/-- One header map value (Go `http.Header`), as an association list from key
to value list. The source only uses keys already in canonical MIME form, so
`Add`'s key canonicalisation is elided. -/
structure HeaderMap where
  entries : List (String × List String) := []
  deriving DecidableEq, Repr

/-- Append a value under a key, keeping other keys untouched. -/
def addToEntries : List (String × List String) → String → String → List (String × List String)
  | [], k, v => [(k, [v])]
  | (k', vs) :: rest, k, v =>
      if k' = k then (k', vs ++ [v]) :: rest else (k', vs) :: addToEntries rest k v

/-- http.Header.Add. -/
def HeaderMap.add (h : HeaderMap) (k v : String) : HeaderMap :=
  ⟨addToEntries h.entries k v⟩

/-- http.Header.Get: the first value stored under the key, or "". -/
def HeaderMap.get (h : HeaderMap) (k : String) : String :=
  match h.entries.find? (fun e => e.1 = k) with
  | some (_, v :: _) => v
  | _ => ""

/-- The heap of live header maps; a reference is an index into it. -/
abbrev Heap := List HeaderMap

/-- A reference to a header map. -/
abbrev HeaderRef := Nat

/-- Dereference (out-of-range reads the empty map; every statement below
constrains references to be in range). -/
def Heap.read (heap : Heap) (r : HeaderRef) : HeaderMap := heap.getD r {}

/-- Allocate a fresh cell holding `m` (this is what `Clone` does with the
contents of an existing cell). -/
def Heap.alloc (heap : Heap) (m : HeaderMap) : Heap × HeaderRef :=
  (heap ++ [m], heap.length)

/-- In-place mutation of the cell `r` (what `Add` does through a reference). -/
def Heap.write (heap : Heap) (r : HeaderRef) (m : HeaderMap) : Heap := heap.set r m

/-- The adminclient `client` struct: base address and the reference to its
stored default header map. The pluggable transport (`HTTPClient`) is passed
to each operation as the oracle `do_`. -/
structure client where
  baseURL : String := ""
  headersRef : HeaderRef := 0
  deriving DecidableEq, Repr

/-- `New(WithBaseURL(u), WithHeaders(h))` (part_000 lines 34-69): the
headers option stores `headers.Clone()` — a fresh cell with a copy of the
caller's map — so later mutation through the caller's reference cannot reach
the client. (`WithBaseURL` also strips a trailing path slash; the base is
carried as an opaque string here.) -/
def newClient (heap : Heap) (base : String) (callerHeaders : HeaderRef) : client × Heap :=
  let a := Heap.alloc heap (Heap.read heap callerHeaders)
  ({ baseURL := base, headersRef := a.2 }, a.1)

/-- An outbound `http.Request`: its header map is a reference (the request
owns a private cell after the clone). -/
structure Request where
  method : String
  url : String
  headersRef : HeaderRef
  body : Option String := none
  deriving DecidableEq, Repr

/-- What the transport sees: the request with its header map dereferenced. -/
structure RequestView where
  method : String
  url : String
  headers : HeaderMap
  body : Option String := none
  deriving DecidableEq, Repr

/-- Materialise a request for the transport. -/
def Request.view (req : Request) (heap : Heap) : RequestView :=
  { method := req.method, url := req.url,
    headers := Heap.read heap req.headersRef, body := req.body }

/-- An `http.Response`: status code and the body text (the body is read at
most once on every path, and `res.Body.Close` releases it on every exit; a
read failure cannot arise for a body modelled as a string). -/
structure Response where
  statusCode : Nat := 0
  body : String := ""
  deriving DecidableEq, Repr

/-- A transport failure (network, DNS, TLS, context cancellation),
surfaced as-is. -/
structure TransportError where
  message : String := ""
  deriving DecidableEq, Repr

/-- The observable outcome of `json.Unmarshal(body, &errorObject)` into the
error shape: which JSON-tagged fields the call wrote (encoding/json leaves a
field unchanged when the input supplies no value for it, and may have
written some fields before returning a type error), and whether it returned
nil (`ok`). -/
structure UnmRes where
  code : Option Nat := none
  msg : Option String := none
  errorId : Option String := none
  ok : Bool := true
  deriving DecidableEq, Repr

/-- adminclient.Error (part_000 lines 248-255): operation description and
expected status (never serialised), then the JSON-tagged code, message and
error id. -/
structure Error where
  Op : String := ""
  Expected : Nat := 0
  Code : Nat := 0
  Message : String := ""
  ErrorID : String := ""
  deriving DecidableEq, Repr

/-- The Error method of adminclient.Error (part_000 lines 257-259). -/
def Error.render (e : Error) : String :=
  "adminclient: expected HTTP " ++ toString e.Expected ++ " when " ++ e.Op ++
    ", got HTTP " ++ toString e.Code ++ ": " ++ e.Message

/-- parseError (part_000 lines 261-277): the error object starts from the
operation description, the expected status and the response's status code;
`json.Unmarshal` then overwrites whichever fields the body supplies
(`Code` included), and when it reports an error the raw body text becomes
the message. -/
def parseError (unm : String → UnmRes) (res : Response) (expected : Nat)
    (op : String) : Error :=
  let r := unm res.body
  { Op := op
    Expected := expected
    Code := r.code.getD res.statusCode
    Message := if r.ok then r.msg.getD "" else res.body
    ErrorID := r.errorId.getD "" }

/-- The errors a client operation can return: a transport error, the
structured API error from `parseError`, or a response-body decode error
(carrying the decoder's message). -/
inductive ClientError where
  | transport (e : TransportError)
  | api (e : Error)
  | decode (msg : String)
  deriving DecidableEq, Repr

/-- err.Error() of a client error, as diag.FromErr reads it. -/
def ClientError.errorString : ClientError → String
  | .transport e => e.message
  | .api e => Error.render e
  | .decode msg => msg

/-- diag.FromErr: one error diagnostic whose summary is the error's text. -/
def diagFromErr (e : ClientError) : Diagnostic :=
  { severity := .error, summary := ClientError.errorString e }

/-- adminclient.SAML (part_000 lines 108-112). -/
structure SAML where
  MetadataXML : String := ""
  MetadataURL : String := ""
  AttributeMapping : AttributeMapping := {}
  deriving DecidableEq, Repr

/-- adminclient.Domain (part_000 lines 114-116). -/
structure Domain where
  Domain : String := ""
  deriving DecidableEq, Repr

/-- adminclient.IdentityProviderResponse (part_000 lines 96-106). -/
structure IdentityProviderResponse where
  ID : String := ""
  ResourceID : String := ""
  Domains : List Domain := []
  SAML : SAML := {}
  CreatedAt : GoTime := {}
  UpdatedAt : GoTime := {}
  deriving DecidableEq, Repr

/-- Request construction of GetIdentityProvider (part_000 lines 118-127):
GET to {base}/admin/sso/providers/{id}; `req.Header = c.Headers.Clone()`
gives the request a fresh cell holding a copy of the client's map. -/
def buildGetRequest (heap : Heap) (c : client) (id : String) : Request × Heap :=
  let a := Heap.alloc heap (Heap.read heap c.headersRef)
  ({ method := "GET", url := c.baseURL ++ "/admin/sso/providers/" ++ id,
     headersRef := a.2 }, a.1)

/-- Request construction of CreateIdentityProvider (part_000 lines 149-164):
POST with the JSON-encoded template as body (`enc` models
`json.NewEncoder(buffer).Encode`), a cloned header map, and Content-Type
added on the clone. -/
def buildCreateRequest (enc : IdentityProviderRequest → String) (heap : Heap)
    (c : client) (template : IdentityProviderRequest) : Request × Heap :=
  let a := Heap.alloc heap (Heap.read heap c.headersRef)
  let heap2 := Heap.write a.1 a.2 ((Heap.read a.1 a.2).add "Content-Type" "application/json")
  ({ method := "POST", url := c.baseURL ++ "/admin/sso/providers",
     headersRef := a.2, body := some (enc template) }, heap2)

/-- Request construction of UpdateIdentityProvider (part_000 lines 186-201):
PUT to the item path, body and headers as for Create. -/
def buildUpdateRequest (enc : IdentityProviderRequest → String) (heap : Heap)
    (c : client) (id : String) (template : IdentityProviderRequest) : Request × Heap :=
  let a := Heap.alloc heap (Heap.read heap c.headersRef)
  let heap2 := Heap.write a.1 a.2 ((Heap.read a.1 a.2).add "Content-Type" "application/json")
  ({ method := "PUT", url := c.baseURL ++ "/admin/sso/providers/" ++ id,
     headersRef := a.2, body := some (enc template) }, heap2)

/-- Request construction of DeleteIdentityProvider (part_000 lines 223-232):
DELETE to the item path with a cloned header map. -/
def buildDeleteRequest (heap : Heap) (c : client) (id : String) : Request × Heap :=
  let a := Heap.alloc heap (Heap.read heap c.headersRef)
  ({ method := "DELETE", url := c.baseURL ++ "/admin/sso/providers/" ++ id,
     headersRef := a.2 }, a.1)

/-- GetIdentityProvider (part_000 lines 118-147). `do_` is the pluggable
transport, `unm` the error-body decode, `dec` the response-body decode
(`json.NewDecoder(res.Body).Decode`, message on failure). Success is HTTP
200; any other status yields the `parseError` result. -/
def GetIdentityProvider (do_ : RequestView → Except TransportError Response)
    (unm : String → UnmRes) (dec : String → Except String IdentityProviderResponse)
    (heap : Heap) (c : client) (id : String) :
    Except ClientError IdentityProviderResponse × Heap :=
  let b := buildGetRequest heap c id
  match do_ (Request.view b.1 b.2) with
  | .error e => (.error (.transport e), b.2)
  | .ok res =>
      if res.statusCode ≠ 200 then
        (.error (.api (parseError unm res 200
          ("fetching identity provider with id " ++ goQuote id))), b.2)
      else
        match dec res.body with
        | .error msg => (.error (.decode msg), b.2)
        | .ok provider => (.ok provider, b.2)

/-- CreateIdentityProvider (part_000 lines 149-184): success is HTTP 201. -/
def CreateIdentityProvider (do_ : RequestView → Except TransportError Response)
    (unm : String → UnmRes) (enc : IdentityProviderRequest → String)
    (dec : String → Except String IdentityProviderResponse)
    (heap : Heap) (c : client) (template : IdentityProviderRequest) :
    Except ClientError IdentityProviderResponse × Heap :=
  let b := buildCreateRequest enc heap c template
  match do_ (Request.view b.1 b.2) with
  | .error e => (.error (.transport e), b.2)
  | .ok res =>
      if res.statusCode ≠ 201 then
        (.error (.api (parseError unm res 201 "creating new identity provider")), b.2)
      else
        match dec res.body with
        | .error msg => (.error (.decode msg), b.2)
        | .ok provider => (.ok provider, b.2)

/-- UpdateIdentityProvider (part_000 lines 186-221): success is HTTP 200. -/
def UpdateIdentityProvider (do_ : RequestView → Except TransportError Response)
    (unm : String → UnmRes) (enc : IdentityProviderRequest → String)
    (dec : String → Except String IdentityProviderResponse)
    (heap : Heap) (c : client) (id : String) (template : IdentityProviderRequest) :
    Except ClientError IdentityProviderResponse × Heap :=
  let b := buildUpdateRequest enc heap c id template
  match do_ (Request.view b.1 b.2) with
  | .error e => (.error (.transport e), b.2)
  | .ok res =>
      if res.statusCode ≠ 200 then
        (.error (.api (parseError unm res 200
          ("updating identity provider with ID " ++ goQuote id))), b.2)
      else
        match dec res.body with
        | .error msg => (.error (.decode msg), b.2)
        | .ok provider => (.ok provider, b.2)

/-- DeleteIdentityProvider (part_000 lines 223-246): success is HTTP 200, no
body decoded. -/
def DeleteIdentityProvider (do_ : RequestView → Except TransportError Response)
    (unm : String → UnmRes) (heap : Heap) (c : client) (id : String) :
    Except ClientError Unit × Heap :=
  let b := buildDeleteRequest heap c id
  match do_ (Request.view b.1 b.2) with
  | .error e => (.error (.transport e), b.2)
  | .ok res =>
      if res.statusCode ≠ 200 then
        (.error (.api (parseError unm res 200
          ("deleting identity provider with ID " ++ goQuote id))), b.2)
      else (.ok (), b.2)

/-! ## The reconciler's record synchronisation and delete
(gotrue/provider.go lines 20-68 and 114-124) -/

/-- The declarative resource record as stored by the host: the identifier
slot and the schema fields of gotrue_saml_identity_provider. -/
structure StateRecord where
  id : String := ""
  metadata_url : String := ""
  metadata_xml : String := ""
  created_at : String := ""
  updated_at : String := ""
  domains : List String := []
  attribute_mapping : String := ""
  deriving DecidableEq, Repr

/-- Insert into a sorted list, keeping ascending order. -/
def insertSorted (x : String) : List String → List String
  | [] => [x]
  | y :: l => if x ≤ y then x :: y :: l else y :: insertSorted x l

/-- sort.Strings: sorts the slice ascending (insertion sort stands in for
the stdlib's sort; only the sortedness and the multiset of elements are ever
used). -/
def sortStrings (l : List String) : List String := l.foldr insertSorted []

/-- schema.Set.Add: inserts the element unless already present. -/
def schemaSetAdd (s : List String) (x : String) : List String :=
  if x ∈ s then s else s ++ [x]

/-- resourceIdentityProviderSet (gotrue/provider.go lines 20-68): write the
response into the record — the identifier; metadata URL if non-empty, else
metadata XML if non-empty; the timestamps (`fmtTime` models
`t.UTC().Format(time.RFC3339)`); the response's domain values sorted with
sort.Strings and added one by one to a fresh set; the attribute mapping
re-serialised to a string (`marshalAttr` models `json.Marshal`, which cannot
fail on these values). `d.Set` errors cannot arise for these fixed schema
fields and are not modelled. -/
def resourceIdentityProviderSet (marshalAttr : AttributeMapping → String)
    (fmtTime : GoTime → String) (provider : IdentityProviderResponse)
    (d : StateRecord) : StateRecord :=
  let d := { d with id := provider.ID }
  let d :=
    if provider.SAML.MetadataURL ≠ "" then
      { d with metadata_url := provider.SAML.MetadataURL }
    else if provider.SAML.MetadataXML ≠ "" then
      { d with metadata_xml := provider.SAML.MetadataXML }
    else d
  let d := { d with created_at := fmtTime provider.CreatedAt,
                    updated_at := fmtTime provider.UpdatedAt }
  let domains := provider.Domains.map Domain.Domain
  let domainsSet := (sortStrings domains).foldl schemaSetAdd []
  let d := { d with domains := domainsSet }
  { d with attribute_mapping := marshalAttr provider.SAML.AttributeMapping }

/-- resourceIdentityProviderDelete (gotrue/provider.go lines 114-124): issue
the client Delete by the record's identifier; any error is surfaced via
diag.FromErr with the record untouched; on success the identifier is
cleared (`d.SetId("")`). -/
def resourceIdentityProviderDelete (do_ : RequestView → Except TransportError Response)
    (unm : String → UnmRes) (heap : Heap) (c : client) (d : StateRecord) :
    (List Diagnostic × StateRecord) × Heap :=
  let r := DeleteIdentityProvider do_ unm heap c d.id
  match r.1 with
  | .error e => (([diagFromErr e], d), r.2)
  | .ok _ => (([], { d with id := "" }), r.2)

/-! ## Concrete oracle instances

Used by the closed theorems below; each records, as a Lean function, the
answer Go's stdlib is documented to give on the inputs of that run. -/

/-- encoding/json on the empty input: "unexpected end of JSON input". -/
def unmAttrEmptyFail : String → Except String AttributeMapping :=
  fun _ => .error "unexpected end of JSON input"

/-- An error-body unmarshal that decodes nothing (body not of the error
shape): no field written, non-nil error. -/
def unmNothing : String → UnmRes := fun _ => { ok := false }

/-- A response-body decoder that always fails (never reached in the runs
below, which all stop at the status check). -/
def decNever : String → Except String IdentityProviderResponse :=
  fun _ => .error "unexpected end of JSON input"

/-- A request encoder with a fixed output (the runs below never read the
request body). -/
def encAny : IdentityProviderRequest → String := fun _ => "\x7b\x7d"

/-- An error body whose code field (500) differs from the HTTP status the
run delivers it under (400). -/
def c3body : String := "\x7b\"code\":500,\"msg\":\"x\"\x7d"

/-- json.Unmarshal of `c3body` into the error shape: code 500, msg "x". -/
def c3unm : String → UnmRes := fun s =>
  if s = c3body then { code := some 500, msg := some "x", ok := true }
  else { ok := false }

/-- A transport answering every request with HTTP 400 and body `c3body`. -/
def c3do : RequestView → Except TransportError Response :=
  fun _ => .ok { statusCode := 400, body := c3body }

/-- The error body of the spec's Create example. -/
def c3body400 : String := "\x7b\"code\":400,\"msg\":\"invalid metadata\"\x7d"

/-- json.Unmarshal of `c3body400`: code 400, msg "invalid metadata". -/
def c3unm400 : String → UnmRes := fun s =>
  if s = c3body400 then { code := some 400, msg := some "invalid metadata", ok := true }
  else { ok := false }

/-- A transport answering every request with HTTP 400 and body `c3body400`. -/
def c3do400 : RequestView → Except TransportError Response :=
  fun _ => .ok { statusCode := 400, body := c3body400 }

/-- url.ParseRequestURI on the five addresses of the evaluation below:
"not-a-url" has no scheme and is not an absolute path, so the parse fails
(Go returns a nil URL); the others parse into their scheme and host. -/
def c4parse : String → Option URLRec := fun s =>
  if s = "not-a-url" then none
  else if s = "ftp://host" then some { Scheme := "ftp", Host := "host" }
  else if s = "http://example.com" then some { Scheme := "http", Host := "example.com" }
  else if s = "http://localhost:9999" then some { Scheme := "http", Host := "localhost:9999" }
  else if s = "http://127a0b0c1" then some { Scheme := "http", Host := "127a0b0c1" }
  else none

/-- An update state in which both metadata fields changed. -/
def c2data : UpdateData :=
  { metadataURLOld := "https://old.example/metadata",
    metadataURLNew := "https://new.example/metadata",
    metadataXMLOld := "<a/>", metadataXMLNew := "<b/>" }

/-- An update state whose desired domain set equals the stored one. -/
def c6data : UpdateData := { domainsOld := ["a.com"], domainsNew := ["a.com"] }

/-! ## Theorems -/

/-- Helper: the diagnostics of a list of domain values are exactly one
error diagnostic for each value rejected by the pattern, in order. -/
theorem domainsValidate_eq (values : List String) :
    domainsValidate values =
      (values.filter (fun v => !domainPatternMatches v)).map (fun v =>
        { severity := .error,
          summary := "Value " ++ goQuote v ++ " is not a valid domain" }) := by
  induction values with
  | nil => rfl
  | cons v l ih =>
      simp only [domainsValidate, List.flatMap_cons, List.filter_cons] at *
      by_cases h : domainPatternMatches v
      · simp [domainValidateDiag, h, ih]
      · simp [domainValidateDiag, h, ih]

/-- C1 counterexample: the frozen claim lists "-bad.com" among the strings
that must produce exactly one error diagnostic; the validator accepts it
(the character class of `domainPattern` accepts a hyphen in any position,
including the first), so no diagnostic at all is produced. -/
theorem c1_counterexample : domainValidateDiag "-bad.com" = [] := by decide

/-- C1 (amended): the domains element validator produces no diagnostic for a
value matched by `domainPattern` and exactly one error diagnostic per value
it rejects, accumulated across the elements without short-circuiting; the
pattern's unescaped dot makes it accept any single non-newline separator
("a#b") and its character class accepts leading or trailing hyphens
("-bad.com"), while "EXAMPLE.com", "" and "a..b" are rejected. -/
theorem c1_theorem :
    (∀ values : List String,
      domainsValidate values =
        (values.filter (fun v => !domainPatternMatches v)).map (fun v =>
          { severity := .error,
            summary := "Value " ++ goQuote v ++ " is not a valid domain" })) ∧
    domainPatternMatches "EXAMPLE.com" = false ∧
    domainPatternMatches "" = false ∧
    domainPatternMatches "-bad.com" = true ∧
    domainPatternMatches "a#b" = true ∧
    domainPatternMatches "a..b" = false :=
  ⟨domainsValidate_eq, by decide, by decide, by decide, by decide, by decide⟩

/-- C2 counterexample: no prior/desired state makes the update template
carry both metadata fields — the change checks form an if/else-if chain, so
when both fields changed only the URL is copied and the XML field stays
empty. -/
theorem c2_counterexample : updateSetsBothMetadata = False := by
  apply eq_false
  rintro ⟨unmA, d, t, hu, hx, hb, hU, hX⟩
  apply hX
  unfold buildUpdateTemplate at hb
  simp only [hu, if_true] at hb
  split at hb <;> (try split at hb) <;> (try split at hb) <;>
    first
      | exact Except.noConfusion hb
      | (obtain rfl := (Except.ok.injEq _ _).mp hb
         first
           | rfl
           | (split <;> rfl))

/-- C2 (amended): Update's metadata change checks form an if/else-if chain,
so they are mutually exclusive: when metadata_url changed the request
carries the desired URL and an empty XML field (even if metadata_xml also
changed); the XML field is sent only when metadata_url is unchanged and
metadata_xml changed; when neither changed both stay empty. -/
theorem c2_theorem : ∀ (unmA : String → Except String AttributeMapping)
    (d : UpdateData) (t : IdentityProviderRequest),
    buildUpdateTemplate unmA d = Except.ok t →
    ((hasChangeMetadataURL d = true →
        t.MetadataURL = d.metadataURLNew ∧ t.MetadataXML = "") ∧
     (hasChangeMetadataURL d = false → hasChangeMetadataXML d = true →
        t.MetadataXML = d.metadataXMLNew ∧ t.MetadataURL = "") ∧
     (hasChangeMetadataURL d = false → hasChangeMetadataXML d = false →
        t.MetadataURL = "" ∧ t.MetadataXML = "")) := by
  intro unmA d t hb
  unfold buildUpdateTemplate at hb
  cases hu : hasChangeMetadataURL d <;> cases hx : hasChangeMetadataXML d <;>
    simp only [hu, hx, Bool.false_eq_true, Bool.true_eq_false, if_true, if_false,
      ite_true, ite_false, false_implies, true_implies, implies_true, true_and,
      and_true, forall_const] at hb ⊢ <;>
    (split at hb <;> (try split at hb) <;> (try split at hb)) <;>
    first
      | exact Except.noConfusion hb
      | (obtain rfl := (Except.ok.injEq _ _).mp hb
         constructor <;> first | rfl | ((repeat' split) <;> rfl))

/-- C2 witness: at `c2data` (both metadata fields changed) the built
template carries the new URL and an empty XML field. -/
theorem c2_witness :
    ({ MetadataURL := "https://new.example/metadata" } : IdentityProviderRequest).MetadataURL =
        c2data.metadataURLNew ∧
    ({ MetadataURL := "https://new.example/metadata" } : IdentityProviderRequest).MetadataXML = "" :=
  (c2_theorem unmAttrEmptyFail c2data
      { MetadataURL := "https://new.example/metadata" } (by rfl)).1 (by rfl)

/-- Helper: "domains" occurs among a request's serialised fields only via
the nullable domain list. -/
theorem not_mem_ite_singleton {s x : String} {P : Prop} [Decidable P]
    (h : ¬s = x) : s ∉ (if P then [x] else []) := by
  split <;> simp [h]

/-- C6: when the desired domain set equals the stored one (no change
detected), Update's template leaves the domain list absent (nil, not an
empty list), and the serialised request omits the domains field entirely. -/
theorem c6_theorem : ∀ (unmA : String → Except String AttributeMapping)
    (d : UpdateData) (t : IdentityProviderRequest),
    hasChangeDomains d = false →
    buildUpdateTemplate unmA d = Except.ok t →
    t.Domains = none ∧ "domains" ∉ requestJSONFields t := by
  intro unmA d t hd hb
  unfold buildUpdateTemplate at hb
  simp only [hd, Bool.false_eq_true, if_false, ite_false] at hb
  have hdom : t.Domains = none := by
    split at hb <;> (try split at hb) <;> (try split at hb) <;>
      first
        | exact Except.noConfusion hb
        | (obtain rfl := (Except.ok.injEq _ _).mp hb
           first | rfl | ((repeat' split) <;> rfl))
  refine ⟨hdom, ?_⟩
  unfold requestJSONFields
  simp only [hdom, ne_eq, not_true_eq_false, if_false, ite_false]
  split_ifs <;> decide

/-- C6 witness: at `c6data` (stored and desired domains both ["a.com"]) the
built template is the zero request: its domain list is nil and "domains" is
not among the serialised fields. -/
theorem c6_witness :
    ({} : IdentityProviderRequest).Domains = none ∧
    "domains" ∉ requestJSONFields {} :=
  c6_theorem unmAttrEmptyFail c6data {} (by rfl) (by rfl)

/-- C10: the attribute_mapping validator has no non-empty guard — the empty
string goes straight to json.Unmarshal, whose failure on empty input yields
the single JSON-validity error diagnostic, so "" can never pass field
validation — while Create's and Update's request construction skip decoding
when the field is empty and build their templates successfully with a zero
mapping under the very decoder that rejects "". -/
theorem c10_theorem : ∀ (unmA : String → Except String AttributeMapping) (e : String),
    unmA "" = Except.error e →
    (attributeMappingValidate unmA "" =
      [{ severity := .error, summary := "attribute_mapping must be valid JSON",
         detail := "JSON parsing failed: " ++ e }] ∧
     (∀ d : UpdateData, d.attributeMappingNew = "" →
        ∃ t, buildUpdateTemplate unmA d = Except.ok t ∧ t.AttributeMapping = {}) ∧
     (∀ d : CreateData, d.attributeMapping = "" →
        ∃ t, buildCreateTemplate unmA d = Except.ok t ∧ t.AttributeMapping = {})) := by
  intro unmA e he
  refine ⟨by simp [attributeMappingValidate, he], ?_, ?_⟩
  · intro d hd
    unfold buildUpdateTemplate
    simp only [hd, ne_eq, not_true_eq_false, if_false, ite_false]
    split <;> exact ⟨_, rfl, by first | rfl | ((repeat' split) <;> rfl)⟩
  · intro d hd
    unfold buildCreateTemplate
    simp only [hd, ne_eq, not_true_eq_false, if_false, ite_false]
    exact ⟨_, rfl, by first | rfl | ((repeat' split) <;> rfl)⟩

/-- C10 witness: under the decoder that fails on the empty input with Go's
message, validating the empty attribute_mapping yields exactly the
JSON-validity diagnostic. -/
theorem c10_witness :
    attributeMappingValidate unmAttrEmptyFail "" =
      [{ severity := .error, summary := "attribute_mapping must be valid JSON",
         detail := "JSON parsing failed: " ++ "unexpected end of JSON input" }] :=
  (c10_theorem unmAttrEmptyFail "unexpected end of JSON input" rfl).1

/-- Helper: counting empty names is independent of the positions `enum`
attaches. -/
theorem enumFrom_filter_empty_length (n : Nat) (l : List String) :
    ((List.enumFrom n l).filter (fun p => p.2 = "")).length =
      (l.filter (fun x => x = "")).length := by
  induction l generalizing n with
  | nil => rfl
  | cons a l ih =>
      simp only [List.enumFrom, List.filter_cons]
      by_cases h : a = ""
      · simp [h, ih]
      · simp [h, ih]

/-- Helper: the validator's key scan grows the accumulated diagnostics by
one per key with nothing set plus one per empty names entry. -/
theorem attrValidate_foldl_length (keys : List (String × Attribute))
    (acc : List Diagnostic) :
    (keys.foldl (fun diags kv =>
        if kv.2.Name = "" ∧ kv.2.Names = [] ∧ kv.2.Default = none then
          diags ++ [{ severity := .error,
                      summary := "Attribute mapping key " ++ goQuote kv.1 ++
                        " must have at least one property set: name, names or default" }]
        else if kv.2.Names.length > 0 then
          diags ++ (kv.2.Names.enum.filter (fun p => p.2 = "")).map (fun p =>
            { severity := .error,
              summary := "Attribute mapping name under " ++ goQuote kv.1 ++
                ".names at position " ++ toString p.1 ++ " is empty" })
        else diags) acc).length =
      acc.length +
        ((keys.filter (fun kv => kv.2.Name = "" ∧ kv.2.Names = [] ∧ kv.2.Default = none)).length +
         (keys.map (fun kv => (kv.2.Names.filter (fun n => n = "")).length)).sum) := by
  induction keys generalizing acc with
  | nil => simp
  | cons kv keys ih =>
      simp only [List.foldl_cons, List.filter_cons, List.map_cons, List.sum_cons]
      by_cases h1 : kv.2.Name = "" ∧ kv.2.Names = [] ∧ kv.2.Default = none
      · rw [ih]
        simp [h1, h1.2.1]
        omega
      · by_cases h2 : kv.2.Names.length > 0
        · rw [ih]
          simp only [h1, h2, if_true, if_false, List.length_append, List.length_map,
            List.enum, enumFrom_filter_empty_length]
          simp [h1]
          omega
        · rw [ih]
          have hnil : kv.2.Names = [] := List.eq_nil_of_length_eq_zero (by omega)
          have h1x : ¬(kv.2.Name = "" ∧ kv.2.Default = none) := by
            intro hc
            exact h1 ⟨hc.1, hnil, hc.2⟩
          simp [h1, h2, hnil, h1x]

/-- Helper: every diagnostic the key scan appends carries severity error. -/
theorem attrValidate_foldl_all (keys : List (String × Attribute))
    (acc : List Diagnostic) (hacc : acc.all (fun d => d.severity == .error) = true) :
    (keys.foldl (fun diags kv =>
        if kv.2.Name = "" ∧ kv.2.Names = [] ∧ kv.2.Default = none then
          diags ++ [{ severity := .error,
                      summary := "Attribute mapping key " ++ goQuote kv.1 ++
                        " must have at least one property set: name, names or default" }]
        else if kv.2.Names.length > 0 then
          diags ++ (kv.2.Names.enum.filter (fun p => p.2 = "")).map (fun p =>
            { severity := .error,
              summary := "Attribute mapping name under " ++ goQuote kv.1 ++
                ".names at position " ++ toString p.1 ++ " is empty" })
        else diags) acc).all (fun d => d.severity == .error) = true := by
  induction keys generalizing acc with
  | nil => exact hacc
  | cons kv keys ih =>
      simp only [List.foldl_cons]
      apply ih
      split
      · simp [List.all_append, hacc]
      · split
        · simp only [List.all_append, hacc, Bool.true_and]
          simp [List.all_eq_true]
        · exact hacc

/-- C5: for a value the decoder rejects, the attribute_mapping validator
produces exactly one diagnostic (JSON validity); for a decoded mapping it
produces exactly one diagnostic per key with none of name, names or default
set plus one per empty entry inside a names list — all violations
accumulated, not just the first — and every diagnostic is an error. -/
theorem c5_theorem : ∀ (unmA : String → Except String AttributeMapping) (value : String),
    (attributeMappingValidate unmA value).length =
      (match unmA value with
       | .error _ => 1
       | .ok m => specBadKeyCount m + specEmptyNameCount m) ∧
    (attributeMappingValidate unmA value).all (fun d => d.severity == .error) = true := by
  intro unmA value
  unfold attributeMappingValidate
  cases h : unmA value with
  | error e => simp
  | ok m =>
      refine ⟨?_, attrValidate_foldl_all _ _ rfl⟩
      rw [attrValidate_foldl_length]
      simp [specBadKeyCount, specEmptyNameCount]

/-- C3 counterexample: Create under HTTP 400 with an error body whose code
field is 500 returns an API error whose only status-like fields are the
expected status 201 and a code of 500 — json.Unmarshal overwrote the
preset actual status, so the error does not carry the actual HTTP status
400 anywhere. -/
theorem c3_counterexample :
    (CreateIdentityProvider c3do c3unm encAny decNever [{}] {} {}).1 =
      Except.error (.api { Op := "creating new identity provider", Expected := 201,
                           Code := 500, Message := "x", ErrorID := "" }) ∧
    (500 : Nat) ≠ 400 := ⟨by rfl, by decide⟩

/-- C3 (amended): every client operation receiving a status other than the
expected one returns the parseError result for its operation description and
expected status; parseError always carries the operation description and the
expected status, its code field is the actual HTTP status unless the decoded
body supplies a code (which overwrites it), and its message is the decoded
body's msg field when the body decodes (empty if decoded without one) and
the raw body text otherwise; in particular the spec's Create example (HTTP
400, body code 400 / msg "invalid metadata") yields message
"invalid metadata", expected 201, code 400. -/
theorem c3_theorem :
    (∀ unm res expected op,
        (parseError unm res expected op).Op = op ∧
        (parseError unm res expected op).Expected = expected ∧
        (parseError unm res expected op).Code = ((unm res.body).code.getD res.statusCode) ∧
        (parseError unm res expected op).Message =
          (if (unm res.body).ok then (unm res.body).msg.getD "" else res.body)) ∧
    (∀ do_ unm dec heap c id res,
        do_ (Request.view (buildGetRequest heap c id).1 (buildGetRequest heap c id).2) =
          Except.ok res → res.statusCode ≠ 200 →
        (GetIdentityProvider do_ unm dec heap c id).1 =
          Except.error (.api (parseError unm res 200
            ("fetching identity provider with id " ++ goQuote id)))) ∧
    (∀ do_ unm enc dec heap c template res,
        do_ (Request.view (buildCreateRequest enc heap c template).1
              (buildCreateRequest enc heap c template).2) = Except.ok res →
        res.statusCode ≠ 201 →
        (CreateIdentityProvider do_ unm enc dec heap c template).1 =
          Except.error (.api (parseError unm res 201 "creating new identity provider"))) ∧
    (∀ do_ unm enc dec heap c id template res,
        do_ (Request.view (buildUpdateRequest enc heap c id template).1
              (buildUpdateRequest enc heap c id template).2) = Except.ok res →
        res.statusCode ≠ 200 →
        (UpdateIdentityProvider do_ unm enc dec heap c id template).1 =
          Except.error (.api (parseError unm res 200
            ("updating identity provider with ID " ++ goQuote id)))) ∧
    (∀ do_ unm heap c id res,
        do_ (Request.view (buildDeleteRequest heap c id).1 (buildDeleteRequest heap c id).2) =
          Except.ok res → res.statusCode ≠ 200 →
        (DeleteIdentityProvider do_ unm heap c id).1 =
          Except.error (.api (parseError unm res 200
            ("deleting identity provider with ID " ++ goQuote id)))) ∧
    (CreateIdentityProvider c3do400 c3unm400 encAny decNever [{}] {} {}).1 =
      Except.error (.api { Op := "creating new identity provider", Expected := 201,
                           Code := 400, Message := "invalid metadata", ErrorID := "" }) := by
  refine ⟨?_, ?_, ?_, ?_, ?_, by rfl⟩
  · intro unm res expected op
    simp [parseError]
  · intro do_ unm dec heap c id res hdo hne
    unfold GetIdentityProvider
    dsimp only
    rw [hdo]
    simp [hne]
  · intro do_ unm enc dec heap c template res hdo hne
    unfold CreateIdentityProvider
    dsimp only
    rw [hdo]
    simp [hne]
  · intro do_ unm enc dec heap c id template res hdo hne
    unfold UpdateIdentityProvider
    dsimp only
    rw [hdo]
    simp [hne]
  · intro do_ unm heap c id res hdo hne
    unfold DeleteIdentityProvider
    dsimp only
    rw [hdo]
    simp [hne]

/-- C7: Delete reconciliation is atomic on the local record — when the
client Delete succeeds the diagnostics are empty and exactly the identifier
is cleared; when it returns any error (transport failure or non-200 status)
the error surfaces as a diagnostic and the record is returned exactly as it
was. -/
theorem c7_theorem : ∀ (do_ : RequestView → Except TransportError Response)
    (unm : String → UnmRes) (heap : Heap) (c : client) (d : StateRecord),
    (∀ heap2, DeleteIdentityProvider do_ unm heap c d.id = (Except.ok (), heap2) →
        (resourceIdentityProviderDelete do_ unm heap c d).1 = ([], { d with id := "" })) ∧
    (∀ e heap2, DeleteIdentityProvider do_ unm heap c d.id = (Except.error e, heap2) →
        (resourceIdentityProviderDelete do_ unm heap c d).1 = ([diagFromErr e], d)) := by
  intro do_ unm heap c d
  constructor
  · intro heap2 h
    simp [resourceIdentityProviderDelete, h]
  · intro e heap2 h
    simp [resourceIdentityProviderDelete, h]

/-- Helper: insertion keeps exactly the elements. -/
theorem mem_insertSorted (a x : String) (l : List String) :
    a ∈ insertSorted x l ↔ a = x ∨ a ∈ l := by
  induction l with
  | nil => simp [insertSorted]
  | cons y l ih =>
      unfold insertSorted
      split
      · simp [List.mem_cons]
      · simp only [List.mem_cons, ih]
        tauto

/-- Helper: insertion preserves ascending order. -/
theorem sorted_insertSorted (x : String) (l : List String)
    (h : l.Sorted (· ≤ ·)) : (insertSorted x l).Sorted (· ≤ ·) := by
  induction l with
  | nil => simp [insertSorted]
  | cons y l ih =>
      rw [List.sorted_cons] at h
      unfold insertSorted
      split
      · rename_i hxy
        rw [List.sorted_cons]
        refine ⟨?_, List.sorted_cons.mpr h⟩
        intro b hb
        rcases List.mem_cons.mp hb with rfl | hb
        · exact hxy
        · exact le_trans hxy (h.1 b hb)
      · rename_i hxy
        rw [List.sorted_cons]
        refine ⟨?_, ih h.2⟩
        intro b hb
        rcases (mem_insertSorted b x l).mp hb with rfl | hb
        · exact le_of_not_le hxy
        · exact h.1 b hb

/-- Helper: the output of sortStrings is ascending. -/
theorem sortStrings_sorted (l : List String) : (sortStrings l).Sorted (· ≤ ·) := by
  induction l with
  | nil => simp [sortStrings]
  | cons x l ih => exact sorted_insertSorted x _ ih

/-- Helper: sortStrings keeps exactly the elements. -/
theorem mem_sortStrings (a : String) (l : List String) :
    a ∈ sortStrings l ↔ a ∈ l := by
  induction l with
  | nil => simp [sortStrings]
  | cons x l ih =>
      simp only [sortStrings, List.foldr_cons] at *
      rw [mem_insertSorted]
      simp [ih]

/-- Helper: adding a sorted run of elements one by one into a set list
yields a sorted duplicate-free list with exactly the union of elements. -/
theorem foldl_schemaSetAdd (l : List String) :
    ∀ acc : List String, acc.Sorted (· ≤ ·) → acc.Nodup →
    (∀ a ∈ acc, ∀ b ∈ l, a ≤ b) → l.Sorted (· ≤ ·) →
    (l.foldl schemaSetAdd acc).Sorted (· ≤ ·) ∧ (l.foldl schemaSetAdd acc).Nodup ∧
    (∀ x, x ∈ l.foldl schemaSetAdd acc ↔ x ∈ acc ∨ x ∈ l) := by
  induction l with
  | nil =>
      intro acc hs hn _ _
      exact ⟨hs, hn, by simp⟩
  | cons b l ih =>
      intro acc hs hn hle hl
      rw [List.sorted_cons] at hl
      simp only [List.foldl_cons]
      by_cases hmem : b ∈ acc
      · have step : schemaSetAdd acc b = acc := by simp [schemaSetAdd, hmem]
        rw [step]
        obtain ⟨s1, s2, s3⟩ :=
          ih acc hs hn (fun a ha c hc => hle a ha c (List.mem_cons_of_mem _ hc)) hl.2
        refine ⟨s1, s2, fun x => ?_⟩
        rw [s3]
        constructor
        · rintro (h | h)
          · exact Or.inl h
          · exact Or.inr (List.mem_cons_of_mem _ h)
        · rintro (h | h)
          · exact Or.inl h
          · rcases List.mem_cons.mp h with rfl | h
            · exact Or.inl hmem
            · exact Or.inr h
      · have step : schemaSetAdd acc b = acc ++ [b] := by simp [schemaSetAdd, hmem]
        rw [step]
        have hs2 : (acc ++ [b]).Sorted (· ≤ ·) := by
          refine List.pairwise_append.mpr ⟨hs, List.pairwise_singleton _ _, ?_⟩
          intro a ha c hc
          rw [List.mem_singleton] at hc
          subst hc
          exact hle a ha c (List.mem_cons_self _ _)
        have hn2 : (acc ++ [b]).Nodup := by
          rw [List.nodup_append]
          refine ⟨hn, List.nodup_singleton _, ?_⟩
          intro a ha hab
          rw [List.mem_singleton] at hab
          subst hab
          exact hmem ha
        have hle2 : ∀ a ∈ acc ++ [b], ∀ c ∈ l, a ≤ c := by
          intro a ha c hc
          rcases List.mem_append.mp ha with ha | ha
          · exact hle a ha c (List.mem_cons_of_mem _ hc)
          · rw [List.mem_singleton] at ha
            subst ha
            exact hl.1 c hc
        obtain ⟨s1, s2, s3⟩ := ih (acc ++ [b]) hs2 hn2 hle2 hl.2
        refine ⟨s1, s2, fun x => ?_⟩
        rw [s3]
        simp only [List.mem_append, List.mem_singleton, List.mem_cons]
        tauto

/-- C8: synchronising any response into the record writes a domain set that
is lexicographically sorted, duplicate-free, and holds exactly the domain
values of the response, regardless of their order or duplication there. -/
theorem c8_theorem : ∀ (marshalAttr : AttributeMapping → String)
    (fmtTime : GoTime → String) (provider : IdentityProviderResponse) (d : StateRecord),
    ((resourceIdentityProviderSet marshalAttr fmtTime provider d).domains).Sorted (· ≤ ·) ∧
    ((resourceIdentityProviderSet marshalAttr fmtTime provider d).domains).Nodup ∧
    (∀ s, s ∈ (resourceIdentityProviderSet marshalAttr fmtTime provider d).domains ↔
        s ∈ provider.Domains.map Domain.Domain) := by
  intro marshalAttr fmtTime provider d
  have hdom : (resourceIdentityProviderSet marshalAttr fmtTime provider d).domains =
      (sortStrings (provider.Domains.map Domain.Domain)).foldl schemaSetAdd [] := rfl
  rw [hdom]
  obtain ⟨s1, s2, s3⟩ := foldl_schemaSetAdd
    (sortStrings (provider.Domains.map Domain.Domain)) []
    (by simp) (by simp) (by simp) (sortStrings_sorted _)
  refine ⟨s1, s2, fun s => ?_⟩
  rw [s3]
  simp [mem_sortStrings]

/-- Helper: allocation leaves existing cells readable unchanged. -/
theorem Heap.read_alloc_lt {heap : Heap} {m : HeaderMap} {r : HeaderRef}
    (h : r < heap.length) : Heap.read (Heap.alloc heap m).1 r = Heap.read heap r := by
  simp [Heap.read, Heap.alloc]
  rw [List.getElem?_append_left h]

/-- Helper: the fresh cell reads back what was allocated. -/
theorem Heap.read_alloc_self (heap : Heap) (m : HeaderMap) :
    Heap.read (Heap.alloc heap m).1 (Heap.alloc heap m).2 = m := by
  induction heap with
  | nil => rfl
  | cons a t ih => exact ih

/-- Helper: writing one cell does not change the others. -/
theorem Heap.read_write_ne {heap : Heap} {i r : HeaderRef} {m : HeaderMap}
    (h : r ≠ i) : Heap.read (Heap.write heap i m) r = Heap.read heap r := by
  induction heap generalizing i r with
  | nil => rfl
  | cons a t ih =>
      cases i with
      | zero =>
          cases r with
          | zero => exact absurd rfl h
          | succ r => rfl
      | succ i =>
          cases r with
          | zero => rfl
          | succ r => exact ih (fun he => h (congrArg Nat.succ he))

/-- Helper: a written cell reads back the written value. -/
theorem Heap.read_write_self {heap : Heap} {i : HeaderRef} {m : HeaderMap}
    (h : i < heap.length) : Heap.read (Heap.write heap i m) i = m := by
  induction heap generalizing i with
  | nil => simp at h
  | cons a t ih =>
      cases i with
      | zero => rfl
      | succ i => exact ih (by simpa using h)

/-- Helper: the fresh reference is within the grown heap. -/
theorem Heap.alloc_ref_lt (heap : Heap) (m : HeaderMap) :
    (Heap.alloc heap m).2 < (Heap.alloc heap m).1.length := by
  simp only [Heap.alloc, List.length_append, List.length_singleton]
  exact Nat.lt_succ_self _

/-- Helper: Get leaves its request on a fresh cell, client cell unchanged. -/
theorem buildGetRequest_frame (heap : Heap) (c : client) (id : String)
    (h : c.headersRef < heap.length) :
    (buildGetRequest heap c id).1.headersRef ≠ c.headersRef ∧
    Heap.read (buildGetRequest heap c id).2 c.headersRef = Heap.read heap c.headersRef ∧
    Heap.read (buildGetRequest heap c id).2 (buildGetRequest heap c id).1.headersRef =
      Heap.read heap c.headersRef := by
  unfold buildGetRequest
  dsimp only
  refine ⟨Nat.ne_of_gt h, Heap.read_alloc_lt h, Heap.read_alloc_self _ _⟩

/-- Helper: Delete's request construction, same frame as Get's. -/
theorem buildDeleteRequest_frame (heap : Heap) (c : client) (id : String)
    (h : c.headersRef < heap.length) :
    (buildDeleteRequest heap c id).1.headersRef ≠ c.headersRef ∧
    Heap.read (buildDeleteRequest heap c id).2 c.headersRef = Heap.read heap c.headersRef ∧
    Heap.read (buildDeleteRequest heap c id).2 (buildDeleteRequest heap c id).1.headersRef =
      Heap.read heap c.headersRef := by
  unfold buildDeleteRequest
  dsimp only
  refine ⟨Nat.ne_of_gt h, Heap.read_alloc_lt h, Heap.read_alloc_self _ _⟩

/-- Helper: Create adds Content-Type only on the request's fresh clone. -/
theorem buildCreateRequest_frame (enc : IdentityProviderRequest → String)
    (heap : Heap) (c : client) (template : IdentityProviderRequest)
    (h : c.headersRef < heap.length) :
    (buildCreateRequest enc heap c template).1.headersRef ≠ c.headersRef ∧
    Heap.read (buildCreateRequest enc heap c template).2 c.headersRef =
      Heap.read heap c.headersRef ∧
    Heap.read (buildCreateRequest enc heap c template).2
        (buildCreateRequest enc heap c template).1.headersRef =
      (Heap.read heap c.headersRef).add "Content-Type" "application/json" := by
  unfold buildCreateRequest
  dsimp only
  refine ⟨Nat.ne_of_gt h, ?_, ?_⟩
  · rw [Heap.read_write_ne
        (show c.headersRef ≠ (Heap.alloc heap (Heap.read heap c.headersRef)).2 from
          Nat.ne_of_lt h)]
    exact Heap.read_alloc_lt h
  · rw [Heap.read_write_self (Heap.alloc_ref_lt heap _)]
    rw [Heap.read_alloc_self]

/-- Helper: Update's request construction, same frame as Create's. -/
theorem buildUpdateRequest_frame (enc : IdentityProviderRequest → String)
    (heap : Heap) (c : client) (id : String) (template : IdentityProviderRequest)
    (h : c.headersRef < heap.length) :
    (buildUpdateRequest enc heap c id template).1.headersRef ≠ c.headersRef ∧
    Heap.read (buildUpdateRequest enc heap c id template).2 c.headersRef =
      Heap.read heap c.headersRef ∧
    Heap.read (buildUpdateRequest enc heap c id template).2
        (buildUpdateRequest enc heap c id template).1.headersRef =
      (Heap.read heap c.headersRef).add "Content-Type" "application/json" := by
  unfold buildUpdateRequest
  dsimp only
  refine ⟨Nat.ne_of_gt h, ?_, ?_⟩
  · rw [Heap.read_write_ne
        (show c.headersRef ≠ (Heap.alloc heap (Heap.read heap c.headersRef)).2 from
          Nat.ne_of_lt h)]
    exact Heap.read_alloc_lt h
  · rw [Heap.read_write_self (Heap.alloc_ref_lt heap _)]
    rw [Heap.read_alloc_self]

/-- Helper: Get returns the heap its request construction produced. -/
theorem GetIdentityProvider_snd (do_ : RequestView → Except TransportError Response)
    (unm : String → UnmRes) (dec : String → Except String IdentityProviderResponse)
    (heap : Heap) (c : client) (id : String) :
    (GetIdentityProvider do_ unm dec heap c id).2 = (buildGetRequest heap c id).2 := by
  unfold GetIdentityProvider
  dsimp only
  split
  · rfl
  · split
    · rfl
    · split <;> rfl

/-- Helper: Create returns the heap its request construction produced. -/
theorem CreateIdentityProvider_snd (do_ : RequestView → Except TransportError Response)
    (unm : String → UnmRes) (enc : IdentityProviderRequest → String)
    (dec : String → Except String IdentityProviderResponse)
    (heap : Heap) (c : client) (template : IdentityProviderRequest) :
    (CreateIdentityProvider do_ unm enc dec heap c template).2 =
      (buildCreateRequest enc heap c template).2 := by
  unfold CreateIdentityProvider
  dsimp only
  split
  · rfl
  · split
    · rfl
    · split <;> rfl

/-- Helper: Update returns the heap its request construction produced. -/
theorem UpdateIdentityProvider_snd (do_ : RequestView → Except TransportError Response)
    (unm : String → UnmRes) (enc : IdentityProviderRequest → String)
    (dec : String → Except String IdentityProviderResponse)
    (heap : Heap) (c : client) (id : String) (template : IdentityProviderRequest) :
    (UpdateIdentityProvider do_ unm enc dec heap c id template).2 =
      (buildUpdateRequest enc heap c id template).2 := by
  unfold UpdateIdentityProvider
  dsimp only
  split
  · rfl
  · split
    · rfl
    · split <;> rfl

/-- Helper: Delete returns the heap its request construction produced. -/
theorem DeleteIdentityProvider_snd (do_ : RequestView → Except TransportError Response)
    (unm : String → UnmRes) (heap : Heap) (c : client) (id : String) :
    (DeleteIdentityProvider do_ unm heap c id).2 = (buildDeleteRequest heap c id).2 := by
  unfold DeleteIdentityProvider
  dsimp only
  split
  · rfl
  · split <;> rfl

/-- C9: the client's stored header map is never mutated — the constructor
stores a defensive copy of the caller's map in a fresh cell (so the caller's
map and the client's are distinct, equal-content cells); every operation's
request lives on a private clone distinct from the client's cell, Get and
Delete clone the stored headers verbatim, Create and Update add Content-Type
only on that clone, and each of the four operations leaves the client's
stored header map identical before and after the call. -/
theorem c9_theorem :
    (∀ (heap : Heap) (base : String) (callerHeaders : HeaderRef),
        callerHeaders < heap.length →
        ((newClient heap base callerHeaders).1.headersRef ≠ callerHeaders ∧
         Heap.read (newClient heap base callerHeaders).2
             (newClient heap base callerHeaders).1.headersRef =
           Heap.read heap callerHeaders ∧
         Heap.read (newClient heap base callerHeaders).2 callerHeaders =
           Heap.read heap callerHeaders)) ∧
    (∀ (heap : Heap) (c : client) (id : String), c.headersRef < heap.length →
        ((buildGetRequest heap c id).1.headersRef ≠ c.headersRef ∧
         Heap.read (buildGetRequest heap c id).2 (buildGetRequest heap c id).1.headersRef =
           Heap.read heap c.headersRef)) ∧
    (∀ (enc : IdentityProviderRequest → String) (heap : Heap) (c : client)
        (template : IdentityProviderRequest), c.headersRef < heap.length →
        ((buildCreateRequest enc heap c template).1.headersRef ≠ c.headersRef ∧
         Heap.read (buildCreateRequest enc heap c template).2
             (buildCreateRequest enc heap c template).1.headersRef =
           (Heap.read heap c.headersRef).add "Content-Type" "application/json")) ∧
    (∀ (enc : IdentityProviderRequest → String) (heap : Heap) (c : client) (id : String)
        (template : IdentityProviderRequest), c.headersRef < heap.length →
        ((buildUpdateRequest enc heap c id template).1.headersRef ≠ c.headersRef ∧
         Heap.read (buildUpdateRequest enc heap c id template).2
             (buildUpdateRequest enc heap c id template).1.headersRef =
           (Heap.read heap c.headersRef).add "Content-Type" "application/json")) ∧
    (∀ (heap : Heap) (c : client) (id : String), c.headersRef < heap.length →
        ((buildDeleteRequest heap c id).1.headersRef ≠ c.headersRef ∧
         Heap.read (buildDeleteRequest heap c id).2 (buildDeleteRequest heap c id).1.headersRef =
           Heap.read heap c.headersRef)) ∧
    (∀ do_ unm dec (heap : Heap) (c : client) (id : String), c.headersRef < heap.length →
        Heap.read (GetIdentityProvider do_ unm dec heap c id).2 c.headersRef =
          Heap.read heap c.headersRef) ∧
    (∀ do_ unm enc dec (heap : Heap) (c : client) (template : IdentityProviderRequest),
        c.headersRef < heap.length →
        Heap.read (CreateIdentityProvider do_ unm enc dec heap c template).2 c.headersRef =
          Heap.read heap c.headersRef) ∧
    (∀ do_ unm enc dec (heap : Heap) (c : client) (id : String)
        (template : IdentityProviderRequest), c.headersRef < heap.length →
        Heap.read (UpdateIdentityProvider do_ unm enc dec heap c id template).2 c.headersRef =
          Heap.read heap c.headersRef) ∧
    (∀ do_ unm (heap : Heap) (c : client) (id : String), c.headersRef < heap.length →
        Heap.read (DeleteIdentityProvider do_ unm heap c id).2 c.headersRef =
          Heap.read heap c.headersRef) := by
  refine ⟨?_, ?_, ?_, ?_, ?_, ?_, ?_, ?_, ?_⟩
  · intro heap base callerHeaders h
    unfold newClient
    dsimp only
    exact ⟨Nat.ne_of_gt h, Heap.read_alloc_self _ _, Heap.read_alloc_lt h⟩
  · intro heap c id h
    exact ⟨(buildGetRequest_frame heap c id h).1, (buildGetRequest_frame heap c id h).2.2⟩
  · intro enc heap c template h
    exact ⟨(buildCreateRequest_frame enc heap c template h).1,
           (buildCreateRequest_frame enc heap c template h).2.2⟩
  · intro enc heap c id template h
    exact ⟨(buildUpdateRequest_frame enc heap c id template h).1,
           (buildUpdateRequest_frame enc heap c id template h).2.2⟩
  · intro heap c id h
    exact ⟨(buildDeleteRequest_frame heap c id h).1, (buildDeleteRequest_frame heap c id h).2.2⟩
  · intro do_ unm dec heap c id h
    rw [GetIdentityProvider_snd]
    exact (buildGetRequest_frame heap c id h).2.1
  · intro do_ unm enc dec heap c template h
    rw [CreateIdentityProvider_snd]
    exact (buildCreateRequest_frame enc heap c template h).2.1
  · intro do_ unm enc dec heap c id template h
    rw [UpdateIdentityProvider_snd]
    exact (buildUpdateRequest_frame enc heap c id template h).2.1
  · intro do_ unm heap c id h
    rw [DeleteIdentityProvider_snd]
    exact (buildDeleteRequest_frame heap c id h).2.1

/-- C4 (evaluation at the failing and passing inputs): the empty address
yields one error diagnostic; a non-empty address that url.ParseRequestURI
rejects makes the validator dereference the nil parse result — a runtime
panic (`none`), so the appended parse-error diagnostic is never returned; a
parsed address with a non-http(s) scheme yields one error; an http address
to a non-loopback host yields one warning; http to localhost yields no
diagnostic; and the unescaped dots of the loopback pattern make the
non-loopback host "127a0b0c1" count as loopback, suppressing its warning. -/
theorem c4_theorem :
    urlValidate c4parse "" =
      some [{ severity := .error, summary := "GoTrue URL is empty" }] ∧
    urlValidate c4parse "not-a-url" = none ∧
    urlValidate c4parse "ftp://host" =
      some [{ severity := .error,
              summary := "GoTrue URL is not HTTP(S): " ++ goQuote "ftp" }] ∧
    urlValidate c4parse "http://example.com" =
      some [{ severity := .warning, summary := "GoTrue URL does not use HTTPS",
              detail := "Communication with GoTrue should occur over HTTPS whenever possible" }] ∧
    urlValidate c4parse "http://localhost:9999" = some [] ∧
    urlValidate c4parse "http://127a0b0c1" = some [] := by
  refine ⟨by decide, by decide, by decide, by decide, by decide, by decide⟩
